import Mathlib

/-!
Shallow embedding of the presence-tracking bot in src/main.py.

Timestamps are modelled as `Int` seconds (the source uses timezone-aware
datetimes; differences of datetimes are timedeltas, rendered through
`format_timedelta` after truncating `total_seconds()` to an int — with
whole-second timestamps this truncation is exact).  The in-memory dicts
`online_since` / `game_since` are modelled as association lists
(`List (Nat × Int)`), the sets `last_online_set` / `current_online_set`
as `List Nat` (the source iterates a Python dict, whose keys are unique;
key-uniqueness is an explicit hypothesis where a proof needs it).
Within one execution of the polling loop body the source calls
`now_wib()` several times; the embedding passes a single `now` for the
tick, the standard idealisation of "the current time during this tick".
All upstream / Discord I/O is a parameter: the presence call is an
oracle `List Nat → Option (List α)`, the Discord edit/send outcomes are
an explicit `PubEnv`.
-/

/-- Association-list lookup, modelling Python dict lookup / `in`. -/
def alookup {α : Type} (k : Nat) : List (Nat × α) → Option α
  | [] => none
  | (j, v) :: rest => if j = k then some v else alookup k rest

/-- Association-list removal, modelling Python `dict.pop(k, None)`. -/
def aerase {α : Type} (k : Nat) : List (Nat × α) → List (Nat × α)
  | [] => []
  | (j, v) :: rest => if j = k then aerase k rest else (j, v) :: aerase k rest

/-- The keys of the map are pairwise distinct (always true of a Python dict). -/
def keysNodup {α : Type} (m : List (Nat × α)) : Prop := (m.map Prod.fst).Nodup

instance {α : Type} (m : List (Nat × α)) : Decidable (keysNodup m) :=
  inferInstanceAs (Decidable (List.Nodup (m.map Prod.fst)))

/-- src/main.py `format_timedelta`: seconds → "Hh Mm Ss" / "Mm Ss" / "Ss".
Python `divmod` on ints is floor division with nonnegative remainder for a
positive divisor, which is `Int.ediv` / `Int.emod`. -/
def format_timedelta (secs : Int) : String :=
  let hours := secs.ediv 3600
  let rem := secs.emod 3600
  let minutes := rem.ediv 60
  let seconds := rem.emod 60
  if hours ≠ 0 then
    toString hours ++ "h " ++ toString minutes ++ "m " ++ toString seconds ++ "s"
  else if minutes ≠ 0 then
    toString minutes ++ "m " ++ toString seconds ++ "s"
  else
    toString seconds ++ "s"

/-- src/main.py `chunked`: `for i in range(0, len(l), n): yield l[i:i+n]`.
Structural recursion via a fuel argument equal to the list length so that
concrete instances compute by `rfl` / `decide`; `chunked_join` below shows
the chunks concatenate back to the input. -/
def chunkedAux (n : Nat) : Nat → List α → List (List α)
  | 0, _ => []
  | _, [] => []
  | fuel + 1, l => l.take n :: chunkedAux n fuel (l.drop n)

/-- src/main.py `chunked` applied to a whole list (the source only ever uses
`n = 100`). -/
def chunked (n : Nat) (l : List α) : List (List α) :=
  chunkedAux n l.length l

/-- src/main.py `get_presences`: early-returns `[]` on an empty id list,
otherwise posts one request per 100-chunk; a non-200 response (`none` from
the oracle) is logged and skipped, a 200 response extends `results`.
Returns (results, the list of chunk payloads actually sent upstream). -/
def get_presences (call : List Nat → Option (List α)) (user_ids : List Nat) :
    List α × List (List Nat) :=
  if user_ids.isEmpty then ([], [])
  else
    (chunked 100 user_ids).foldl
      (fun acc chunk =>
        match call chunk with
        | some data => (acc.1 ++ data, acc.2 ++ [chunk])
        | none => (acc.1, acc.2 ++ [chunk]))
      ([], [])

/-- One entry of the per-tick presence map: `userPresenceType` (0 = offline,
2 = in-game, any other nonzero value = online but not in a game) and
`lastLocation` (`none` models a missing/null field). -/
structure Presence where
  userPresenceType : Nat
  lastLocation : Option String
deriving DecidableEq, Repr

/-- One tuple appended to `display_lines` in the source:
(name, formatted online duration, game/location label, formatted game
duration). -/
structure DisplayLine where
  name : String
  onlineS : String
  gameName : String
  gameS : String
deriving DecidableEq, Repr

/-- A notification sent to the notif channel: either the offline message
(with the two computed total durations, in seconds) or the "baru saja
online" message. -/
inductive Event where
  | offline (uid : Nat) (name : String) (totalOnline totalGame : Int)
  | online (uid : Nat) (name : String)
deriving DecidableEq, Repr

/-- `presence.get("lastLocation") or "Tidak bermain"` — Python `or` also
replaces the empty string. -/
def lastLocationOf (p : Presence) : String :=
  match p.lastLocation with
  | some s => if s = "" then "Tidak bermain" else s
  | none => "Tidak bermain"

/-- `username_map.get(uid, str(uid))`. -/
def nameOf (username_map : List (Nat × String)) (uid : Nat) : String :=
  match username_map.lookup uid with
  | some s => s
  | none => toString uid

/-- Accumulator threaded through the `for uid, presence in presence_map.items()`
loop of `update_status_message`. -/
structure TickAcc where
  online_since : List (Nat × Int)
  game_since : List (Nat × Int)
  current_online : List Nat
  events : List Event
  lines : List DisplayLine
deriving Repr

/-- Body of the per-identity loop in `update_status_message`
(src/main.py lines 196-234), one presence-map entry at a time. -/
def stepPresence (last_online_set : List Nat) (username_map : List (Nat × String))
    (now : Int) (acc : TickAcc) (e : Nat × Presence) : TickAcc :=
  let uid := e.1
  let p := e.2
  let is_online := p.userPresenceType ≠ 0
  let name := nameOf username_map uid
  if is_online then
    let os :=
      if (alookup uid acc.online_since).isNone then (uid, now) :: acc.online_since
      else acc.online_since
    let gs :=
      if p.userPresenceType = 2 then
        if (alookup uid acc.game_since).isNone then (uid, now) :: acc.game_since
        else acc.game_since
      else aerase uid acc.game_since
    let online_dur := now - (alookup uid os).getD now
    let game_dur := match alookup uid gs with
      | some g => now - g
      | none => 0
    { acc with
      online_since := os
      game_since := gs
      current_online := acc.current_online ++ [uid]
      lines := acc.lines ++
        [⟨name, format_timedelta online_dur, lastLocationOf p, format_timedelta game_dur⟩] }
  else
    if uid ∈ last_online_set then
      let was_online_since := alookup uid acc.online_since
      let was_game_since := alookup uid acc.game_since
      let total_online := match was_online_since with
        | some t => now - t
        | none => 0
      let total_game := match was_game_since with
        | some t => now - t
        | none => 0
      { acc with
        online_since := aerase uid acc.online_since
        game_since := aerase uid acc.game_since
        events := acc.events ++ [Event.offline uid name total_online total_game] }
    else acc

/-- The whole per-identity loop as a fold over the presence map. -/
def processPresences (last_online_set : List Nat) (username_map : List (Nat × String))
    (now : Int) (os gs : List (Nat × Int)) (pmap : List (Nat × Presence)) : TickAcc :=
  pmap.foldl (stepPresence last_online_set username_map now) ⟨os, gs, [], [], []⟩

/-- The ids the loop adds to `current_online_set`: entries of the presence map
whose kind is not Offline, in map order. -/
def onlineIds (pmap : List (Nat × Presence)) : List Nat :=
  (pmap.filter (fun e => e.2.userPresenceType != 0)).map Prod.fst

/-- Outcome of the Discord calls in the send-or-edit block
(src/main.py lines 278-297): result of `fetch_message` + `edit`. -/
inductive EditResult where
  | ok
  | notFound
  | forbidden
  | otherErr
deriving DecidableEq, Repr

/-- Environment for one execution of the publish block: how the edit would
fare, whether/with which id `channel.send` succeeds (`none` = send raises),
and whether writing state.json succeeds. -/
structure PubEnv where
  editResult : EditResult
  createResult : Option Nat
  persistOk : Bool
deriving DecidableEq, Repr

/-- Result of the publish block: the in-memory `status_message_id`, the
value stored in state.json, and how many `channel.send` calls for the
status message were made. -/
structure PubOutcome where
  status_message_id : Option Nat
  persisted_id : Option Nat
  createCalls : Nat
deriving DecidableEq, Repr

/-- Lines 294-297: persist `status_message_id` into state.json (any exception
there is caught at line 298 and leaves the old file contents). -/
def persistState (env : PubEnv) (mid persisted : Option Nat) (calls : Nat) : PubOutcome :=
  if env.persistOk then ⟨mid, mid, calls⟩ else ⟨mid, persisted, calls⟩

/-- src/main.py lines 278-299: the send-or-edit state machine.  With a handle,
fetch + edit; `discord.NotFound` falls back to `channel.send` and replaces the
handle; `discord.Forbidden` and any other exception are logged and change
nothing.  Without a handle, `channel.send` and store the new id.  A raising
`send` (modelled by `createResult = none`) escapes to the `except` at line
298, so the persist step does not run. -/
def publishStep (env : PubEnv) (msgId persisted : Option Nat) : PubOutcome :=
  match msgId with
  | some mid =>
    match env.editResult with
    | .ok => persistState env (some mid) persisted 0
    | .notFound =>
      match env.createResult with
      | some nid => persistState env (some nid) persisted 1
      | none => ⟨some mid, persisted, 1⟩
    | .forbidden => persistState env (some mid) persisted 0
    | .otherErr => persistState env (some mid) persisted 0
  | none =>
    match env.createResult with
    | some nid => persistState env (some nid) persisted 1
    | none => ⟨none, persisted, 1⟩

/-- The mutable globals of src/main.py that the polling tick touches. -/
structure BotState where
  online_since : List (Nat × Int)
  game_since : List (Nat × Int)
  last_online_set : List Nat
  status_message_id : Option Nat
  persisted_id : Option Nat
deriving DecidableEq, Repr

/-- Everything one tick of `update_status_message` reads from the outside
world: the resolved presence map, the username map, the clock, and the
Discord outcomes. -/
structure TickInput where
  pmap : List (Nat × Presence)
  usernames : List (Nat × String)
  now : Int
  env : PubEnv
deriving Repr

/-- One execution of the body of `update_status_message`
(src/main.py lines 187-303): run the per-identity loop, send one online
notification per member of `current_online_set - last_online_set`, run the
publish block, then unconditionally replace `last_online_set` with
`current_online_set`.  Returns the new state and the tick's notifications. -/
def update_status_message (st : BotState) (ti : TickInput) : BotState × List Event :=
  let acc := processPresences st.last_online_set ti.usernames ti.now
    st.online_since st.game_since ti.pmap
  let new_online := acc.current_online.filter (fun uid => !(decide (uid ∈ st.last_online_set)))
  let onlineEvents := new_online.map (fun uid => Event.online uid (nameOf ti.usernames uid))
  let pub := publishStep ti.env st.status_message_id st.persisted_id
  ({ online_since := acc.online_since
     game_since := acc.game_since
     last_online_set := acc.current_online
     status_message_id := pub.status_message_id
     persisted_id := pub.persisted_id },
   acc.events ++ onlineEvents)

/-- A run of consecutive polling ticks; the second component lists each
tick's notifications separately. -/
def runTicks (st : BotState) : List TickInput → BotState × List (List Event)
  | [] => (st, [])
  | ti :: ts =>
    let r := update_status_message st ti
    let rest := runTicks r.1 ts
    (rest.1, r.2 :: rest.2)

/-- The globals at process start: empty timers, empty last-online set
(`status_message_id` as read from state.json is irrelevant to the
notification claims, so the initial handle is a parameter where needed). -/
def initialState : BotState :=
  { online_since := []
    game_since := []
    last_online_set := []
    status_message_id := none
    persisted_id := none }

/-- `RESTART_INTERVAL = 12 * 60 * 60` seconds. -/
def RESTART_INTERVAL : Int := 12 * 60 * 60

/-- `BAR_LENGTH = 20`. -/
def BAR_LENGTH : Nat := 20

/-- The warning condition of `auto_restart_check` (src/main.py line 316),
checked once per second with `elapsed = int(uptime.total_seconds())`:
`RESTART_INTERVAL - elapsed <= 300 and RESTART_INTERVAL - elapsed > 295`. -/
def auto_restart_warning (elapsed : Int) : Bool :=
  decide (RESTART_INTERVAL - elapsed ≤ 300) && decide (RESTART_INTERVAL - elapsed > 295)

/-- The restart condition of `auto_restart_check` (line 320). -/
def auto_restart_trigger (elapsed : Int) : Bool :=
  decide (elapsed ≥ RESTART_INTERVAL)

/-- The sort key relation of `display_lines.sort(key=lambda x: x[0].lower())`:
case-insensitive comparison of the display names. -/
def lineLE (a b : DisplayLine) : Prop :=
  a.name.toLower ≤ b.name.toLower

instance : DecidableRel lineLE := fun a b =>
  inferInstanceAs (Decidable (a.name.toLower ≤ b.name.toLower))

instance : IsTotal DisplayLine lineLE :=
  ⟨fun a b => le_total a.name.toLower b.name.toLower⟩

instance : IsTrans DisplayLine lineLE :=
  ⟨fun _ _ _ hab hbc => le_trans hab hbc⟩

/-- `display_lines.sort(key=lambda x: x[0].lower())` — Python list.sort is a
stable sort by the key; `List.insertionSort` is a stable sort by `lineLE`. -/
def sortLines (lines : List DisplayLine) : List DisplayLine :=
  List.insertionSort lineLE lines

/-- Python `str.ljust` via the format spec `:<20`. -/
def ljust (s : String) (n : Nat) : String :=
  s ++ String.mk (List.replicate (n - s.length) ' ')

/-- The friend-list text (src/main.py lines 248-252), built from the sorted
display lines, numbering from 1. -/
def friendsText (sorted : List DisplayLine) : String :=
  let t := (List.enumFrom 1 sorted).foldl
    (fun acc e =>
      acc ++ toString e.1 ++ ". **" ++ e.2.name ++ "**\n   Online: " ++ e.2.onlineS ++
        "\n   Game: " ++ e.2.gameName ++ "\n   Waktu Bermain: " ++ e.2.gameS ++ "\n\n")
    ""
  if t = "" then "_Tidak ada teman online_\n" else t

/-- `filled = int(progress * BAR_LENGTH)` with
`progress = min(max(elapsed / RESTART_INTERVAL, 0.0), 1.0)` — modelled in
exact integer arithmetic (the source computes the same clamped proportion in
floating point; the value is deterministic either way, and no claim depends
on the rounded unit count). -/
def filledUnits (elapsed : Int) : Nat :=
  (min (max elapsed 0) RESTART_INTERVAL).toNat * BAR_LENGTH / RESTART_INTERVAL.toNat

/-- The progress bar string of filled and unfilled units. -/
def barOf (filled : Nat) : String :=
  String.mk (List.replicate filled '█') ++
    String.mk (List.replicate (BAR_LENGTH - filled) '░')

/-- The status box plus friend list (src/main.py lines 246-275) as a pure
function of the tick's display lines, the start time, the current time and
the timestamp formatter (`strftime` is deterministic for a fixed timezone, so
it enters as a fixed function parameter). -/
def render (fmtTime : Int → String) (display_lines : List DisplayLine)
    (start now : Int) : String :=
  let sorted := sortLines display_lines
  let ft := friendsText sorted
  let uptime := now - start
  let uptime_s := format_timedelta uptime
  let elapsed := uptime
  let remaining := max (RESTART_INTERVAL - elapsed) 0
  let remaining_s := format_timedelta remaining
  let bar := barOf (filledUnits elapsed)
  let last_update := fmtTime now
  "STATUS BOT\n" ++
    "Uptime        : " ++ ljust uptime_s 20 ++ "\n" ++
    "Teman Online  : " ++ ljust (toString sorted.length) 20 ++ "\n" ++
    "Update Terakhir: " ++ ljust last_update 20 ++ "\n" ++
    "Restart Dalam : " ++ ljust remaining_s 20 ++ "\n" ++
    "[" ++ bar ++ "]\n\n" ++
    "DAFTAR TEMAN ONLINE\n" ++ ft

/-! ## Observation helpers used by the theorems -/

/-- Is this event about the given identity? -/
def eventFor (uid : Nat) : Event → Bool
  | .offline u _ _ _ => u == uid
  | .online u _ => u == uid

/-- Is this an online notification for the given identity? -/
def isOnlineFor (uid : Nat) : Event → Bool
  | .online u _ => u == uid
  | _ => false

/-- Is this an offline notification for the given identity? -/
def isOfflineFor (uid : Nat) : Event → Bool
  | .offline u _ _ _ => u == uid
  | _ => false

/-- Number of online notifications for `uid` in a tick's event list. -/
def countOnline (uid : Nat) (evs : List Event) : Nat :=
  evs.countP (isOnlineFor uid)

/-- Number of offline notifications for `uid` in a tick's event list. -/
def countOffline (uid : Nat) (evs : List Event) : Nat :=
  evs.countP (isOfflineFor uid)

/-- `now - m[uid]`, or zero when absent: the duration computation of the
offline branch. -/
def offDur (m : List (Nat × Int)) (uid : Nat) (now : Int) : Int :=
  match alookup uid m with
  | some t => now - t
  | none => 0

/-- The identity has a presence record this tick and it is not Offline. -/
def onlineIn (uid : Nat) (pmap : List (Nat × Presence)) : Prop :=
  ∃ p, alookup uid pmap = some p ∧ p.userPresenceType ≠ 0

/-- Everything the per-identity loop can do that is observable for one fixed
identity: its two timer entries, the events about it, and its occurrences in
`current_online_set`. -/
structure UidView where
  os : Option Int
  gs : Option Int
  offs : List Event
  conl : List Nat
deriving DecidableEq, Repr

/-- Project a loop accumulator onto one identity. -/
def uidView (uid : Nat) (acc : TickAcc) : UidView :=
  ⟨alookup uid acc.online_since, alookup uid acc.game_since,
   acc.events.filter (eventFor uid),
   acc.current_online.filter (fun x => x == uid)⟩

/-- The effect of the loop body on the projection when the processed entry is
the projected identity itself. -/
def stepViewEntry (last_online_set : List Nat) (username_map : List (Nat × String))
    (now : Int) (uid : Nat) (v : UidView) (p : Presence) : UidView :=
  if p.userPresenceType ≠ 0 then
    { os := some (v.os.getD now)
      gs := if p.userPresenceType = 2 then some (v.gs.getD now) else none
      offs := v.offs
      conl := v.conl ++ [uid] }
  else if uid ∈ last_online_set then
    { os := none
      gs := none
      offs := v.offs ++ [Event.offline uid (nameOf username_map uid)
        (match v.os with | some t => now - t | none => 0)
        (match v.gs with | some t => now - t | none => 0)]
      conl := v.conl }
  else v

/-- The projected transition of one loop iteration (identity branch when the
entry is about another identity). -/
def stepView (last_online_set : List Nat) (username_map : List (Nat × String))
    (now : Int) (uid : Nat) (v : UidView) (e : Nat × Presence) : UidView :=
  if e.1 = uid then stepViewEntry last_online_set username_map now uid v e.2 else v

/-! ## Association-list lemmas -/

theorem alookup_cons_self {α : Type} (k : Nat) (v : α) (m : List (Nat × α)) :
    alookup k ((k, v) :: m) = some v := by
  simp [alookup]

theorem alookup_cons_ne {α : Type} {j k : Nat} (h : j ≠ k) (v : α) (m : List (Nat × α)) :
    alookup k ((j, v) :: m) = alookup k m := by
  simp [alookup, h]

theorem alookup_aerase_self {α : Type} (k : Nat) (m : List (Nat × α)) :
    alookup k (aerase k m) = none := by
  induction m with
  | nil => rfl
  | cons e rest ih =>
    obtain ⟨j, v⟩ := e
    by_cases hj : j = k
    · simpa [aerase, hj] using ih
    · simpa [aerase, hj, alookup, hj] using ih

theorem alookup_aerase_ne {α : Type} {j k : Nat} (h : j ≠ k) (m : List (Nat × α)) :
    alookup k (aerase j m) = alookup k m := by
  induction m with
  | nil => rfl
  | cons e rest ih =>
    obtain ⟨i, v⟩ := e
    by_cases hi : i = j
    · subst hi
      simpa [aerase, alookup, h] using ih
    · by_cases hik : i = k
      · subst hik
        simp [aerase, hi, alookup]
      · simpa [aerase, hi, alookup, hik] using ih

theorem alookup_eq_none_of_not_mem_keys {α : Type} {k : Nat} {m : List (Nat × α)}
    (h : k ∉ m.map Prod.fst) : alookup k m = none := by
  induction m with
  | nil => rfl
  | cons e rest ih =>
    obtain ⟨j, v⟩ := e
    simp only [List.map_cons, List.mem_cons] at h
    push_neg at h
    simpa [alookup, Ne.symm h.1] using ih (by simpa using h.2)

/-! ## The per-identity projection of the loop -/

theorem uidView_stepPresence (last : List Nat) (um : List (Nat × String)) (now : Int)
    (uid : Nat) (acc : TickAcc) (e : Nat × Presence) :
    uidView uid (stepPresence last um now acc e) =
      stepView last um now uid (uidView uid acc) e := by
  obtain ⟨k, p⟩ := e
  by_cases hon : p.userPresenceType ≠ 0
  · by_cases hk : k = uid
    · subst hk
      by_cases h2 : p.userPresenceType = 2
      · cases hos : alookup k acc.online_since <;>
          cases hgs : alookup k acc.game_since <;>
            simp [stepPresence, stepView, stepViewEntry, uidView, hon, h2, hos, hgs,
              alookup_cons_self, eventFor]
      · cases hos : alookup k acc.online_since <;>
          simp [stepPresence, stepView, stepViewEntry, uidView, hon, h2, hos,
            alookup_cons_self, alookup_aerase_self, eventFor]
    · by_cases h2 : p.userPresenceType = 2
      · cases hos : alookup k acc.online_since <;>
          cases hgs : alookup k acc.game_since <;>
            simp [stepPresence, stepView, stepViewEntry, uidView, hon, h2, hk, hos, hgs,
              alookup_cons_ne hk, alookup_aerase_ne hk, eventFor]
      · cases hos : alookup k acc.online_since <;>
          simp [stepPresence, stepView, stepViewEntry, uidView, hon, h2, hk, hos,
            alookup_cons_ne hk, alookup_aerase_ne hk, eventFor]
  · push_neg at hon
    by_cases hk : k = uid
    · subst hk
      by_cases hmem : k ∈ last
      · simp [stepPresence, stepView, stepViewEntry, uidView, hon, hmem, eventFor,
          alookup_aerase_self]
      · simp [stepPresence, stepView, stepViewEntry, uidView, hon, hmem, eventFor]
    · by_cases hmem : k ∈ last
      · simp [stepPresence, stepView, stepViewEntry, uidView, hon, hk, hmem, eventFor,
          alookup_aerase_ne hk]
      · simp [stepPresence, stepView, stepViewEntry, uidView, hon, hk, hmem, eventFor]

theorem uidView_foldl (last : List Nat) (um : List (Nat × String)) (now : Int) (uid : Nat)
    (pmap : List (Nat × Presence)) (acc : TickAcc) :
    uidView uid (pmap.foldl (stepPresence last um now) acc) =
      pmap.foldl (stepView last um now uid) (uidView uid acc) := by
  induction pmap generalizing acc with
  | nil => rfl
  | cons e rest ih =>
    simp only [List.foldl_cons]
    rw [ih, uidView_stepPresence]

theorem foldl_stepView_of_ne (last : List Nat) (um : List (Nat × String)) (now : Int)
    (uid : Nat) (v : UidView) (pmap : List (Nat × Presence))
    (h : ∀ e ∈ pmap, e.1 ≠ uid) :
    pmap.foldl (stepView last um now uid) v = v := by
  induction pmap generalizing v with
  | nil => rfl
  | cons e rest ih =>
    have he : e.1 ≠ uid := h e (by simp)
    simp only [List.foldl_cons, stepView, he, if_false]
    exact ih v (fun x hx => h x (by simp [hx]))

theorem keysNodup_cons_head_not_mem {α : Type} {k : Nat} {q : α} {rest : List (Nat × α)}
    (h : keysNodup ((k, q) :: rest)) : ∀ e ∈ rest, e.1 ≠ k := by
  intro e he hek
  have hmem : k ∈ rest.map Prod.fst := List.mem_map.mpr ⟨e, he, hek⟩
  have hnot : k ∉ rest.map Prod.fst := by
    have h2 := h
    rw [keysNodup, List.map_cons, List.nodup_cons] at h2
    exact h2.1
  exact hnot hmem

theorem keysNodup_cons_tail {α : Type} {k : Nat} {q : α} {rest : List (Nat × α)}
    (h : keysNodup ((k, q) :: rest)) : keysNodup rest := by
  simp [keysNodup, List.nodup_cons] at h
  exact h.2

theorem foldl_stepView_of_lookup (last : List Nat) (um : List (Nat × String)) (now : Int)
    (uid : Nat) (v : UidView) (pmap : List (Nat × Presence)) (p : Presence)
    (hnd : keysNodup pmap) (hp : alookup uid pmap = some p) :
    pmap.foldl (stepView last um now uid) v = stepViewEntry last um now uid v p := by
  induction pmap generalizing v with
  | nil => simp [alookup] at hp
  | cons e rest ih =>
    obtain ⟨k, q⟩ := e
    by_cases hk : k = uid
    · subst hk
      have hq : q = p := by simpa [alookup] using hp
      subst hq
      have hnr : ∀ e ∈ rest, e.1 ≠ k := keysNodup_cons_head_not_mem hnd
      simp only [List.foldl_cons, stepView, if_pos rfl]
      exact foldl_stepView_of_ne last um now k _ rest hnr
    · have hrest : alookup uid rest = some p := by simpa [alookup, hk] using hp
      simp only [List.foldl_cons, stepView, hk, if_false]
      exact ih v (keysNodup_cons_tail hnd) hrest

theorem foldl_current_online (last : List Nat) (um : List (Nat × String)) (now : Int)
    (pmap : List (Nat × Presence)) (acc : TickAcc) :
    (pmap.foldl (stepPresence last um now) acc).current_online =
      acc.current_online ++ onlineIds pmap := by
  induction pmap generalizing acc with
  | nil => simp [onlineIds]
  | cons e rest ih =>
    obtain ⟨k, p⟩ := e
    have hco : (stepPresence last um now acc (k, p)).current_online =
        acc.current_online ++ (if p.userPresenceType ≠ 0 then [k] else []) := by
      by_cases hon : p.userPresenceType ≠ 0
      · simp [stepPresence, hon]
      · by_cases hm : k ∈ last <;> simp [stepPresence, hon, hm]
    by_cases hon : p.userPresenceType ≠ 0 <;>
      simp [List.foldl_cons, ih, hco, hon, onlineIds, List.filter_cons]

/-- Filtering the not-previously-online ids down to one identity. -/
theorem filter_new_online_eq (l last : List Nat) (uid : Nat) :
    (l.filter (fun u => !(decide (u ∈ last)))).filter (fun u => u == uid) =
      if uid ∈ last then [] else l.filter (fun u => u == uid) := by
  by_cases hlast : uid ∈ last
  · rw [if_pos hlast]
    rw [List.filter_eq_nil_iff]
    intro a ha hbeq
    have ha2 := (List.mem_filter.mp ha).2
    have : a = uid := by simpa using hbeq
    subst this
    simp [hlast] at ha2
  · rw [if_neg hlast, List.filter_filter]
    apply List.filter_congr
    intro a _
    by_cases ha : a = uid
    · subst ha
      simp [hlast]
    · simp [ha]

theorem mem_iff_filter_beq_ne_nil (l : List Nat) (uid : Nat) :
    uid ∈ l ↔ l.filter (fun u => u == uid) ≠ [] := by
  constructor
  · intro h hnil
    rw [List.filter_eq_nil_iff] at hnil
    exact absurd (by simp : (uid == uid) = true) (hnil uid h)
  · intro h
    rcases List.exists_mem_of_ne_nil _ h with ⟨a, ha⟩
    have := List.mem_filter.mp ha
    have ha2 : a = uid := by simpa using this.2
    exact ha2 ▸ this.1

/-- Initial projection of one identity before a tick's loop runs. -/
def initView (st : BotState) (uid : Nat) : UidView :=
  ⟨alookup uid st.online_since, alookup uid st.game_since, [], []⟩

/-- Per-identity view of one whole tick when the identity has a presence
record this tick. -/
def tickView (st : BotState) (ti : TickInput) (uid : Nat) (p : Presence) : UidView :=
  stepViewEntry st.last_online_set ti.usernames ti.now uid (initView st uid) p

theorem uidView_processPresences (st : BotState) (ti : TickInput) (uid : Nat) (p : Presence)
    (hnd : keysNodup ti.pmap) (hp : alookup uid ti.pmap = some p) :
    uidView uid (processPresences st.last_online_set ti.usernames ti.now
      st.online_since st.game_since ti.pmap) = tickView st ti uid p := by
  rw [processPresences, uidView_foldl]
  have hinit : uidView uid ⟨st.online_since, st.game_since, [], [], []⟩ = initView st uid := by
    simp [uidView, initView]
  rw [hinit, tickView]
  exact foldl_stepView_of_lookup _ _ _ _ _ _ p hnd hp

/-- Full characterisation of what one tick does, as observed for one identity
that has a presence record this tick: the two timer entries afterwards, the
notifications about it, and its membership in the new `last_online_set`. -/
theorem tick_uid_char (st : BotState) (ti : TickInput) (uid : Nat) (p : Presence)
    (hnd : keysNodup ti.pmap) (hp : alookup uid ti.pmap = some p) :
    alookup uid (update_status_message st ti).1.online_since = (tickView st ti uid p).os ∧
    alookup uid (update_status_message st ti).1.game_since = (tickView st ti uid p).gs ∧
    (update_status_message st ti).2.filter (eventFor uid) =
      (tickView st ti uid p).offs ++
        (if uid ∈ st.last_online_set then []
         else (tickView st ti uid p).conl.map
           (fun u => Event.online u (nameOf ti.usernames u))) ∧
    (uid ∈ (update_status_message st ti).1.last_online_set ↔ (tickView st ti uid p).conl ≠ []) := by
  have hv := uidView_processPresences st ti uid p hnd hp
  set acc := processPresences st.last_online_set ti.usernames ti.now
    st.online_since st.game_since ti.pmap with hacc
  have hos : alookup uid acc.online_since = (tickView st ti uid p).os := by
    rw [← hv]; rfl
  have hgs : alookup uid acc.game_since = (tickView st ti uid p).gs := by
    rw [← hv]; rfl
  have hoffs : acc.events.filter (eventFor uid) = (tickView st ti uid p).offs := by
    rw [← hv]; rfl
  have hconl : acc.current_online.filter (fun u => u == uid) = (tickView st ti uid p).conl := by
    rw [← hv]; rfl
  refine ⟨hos, hgs, ?_, ?_⟩
  · show (acc.events ++ (acc.current_online.filter
        (fun u => !(decide (u ∈ st.last_online_set)))).map
          (fun u => Event.online u (nameOf ti.usernames u))).filter (eventFor uid) = _
    rw [List.filter_append, hoffs]
    congr 1
    rw [List.filter_map]
    have hcomp : (eventFor uid ∘ fun u => Event.online u (nameOf ti.usernames u)) =
        fun u => u == uid := by
      funext u
      rfl
    rw [hcomp, filter_new_online_eq, ← hconl]
    by_cases hlast : uid ∈ st.last_online_set
    · simp [hlast]
    · simp [hlast]
  · show uid ∈ acc.current_online ↔ _
    rw [← hconl]
    exact mem_iff_filter_beq_ne_nil acc.current_online uid

/-- Frame: an identity with no presence record this tick is observationally
untouched by the loop and by the diff step. -/
theorem tick_uid_frame (st : BotState) (ti : TickInput) (uid : Nat)
    (h : uid ∉ ti.pmap.map Prod.fst) :
    alookup uid (update_status_message st ti).1.online_since = alookup uid st.online_since ∧
    alookup uid (update_status_message st ti).1.game_since = alookup uid st.game_since ∧
    (update_status_message st ti).2.filter (eventFor uid) = [] ∧
    uid ∉ (update_status_message st ti).1.last_online_set := by
  have hne : ∀ e ∈ ti.pmap, e.1 ≠ uid := by
    intro e he hek
    exact h (List.mem_map.mpr ⟨e, he, hek⟩)
  have hv : uidView uid (processPresences st.last_online_set ti.usernames ti.now
      st.online_since st.game_since ti.pmap) = initView st uid := by
    rw [processPresences, uidView_foldl]
    have hinit : uidView uid ⟨st.online_since, st.game_since, [], [], []⟩ = initView st uid := by
      simp [uidView, initView]
    rw [hinit]
    exact foldl_stepView_of_ne _ _ _ _ _ _ hne
  set acc := processPresences st.last_online_set ti.usernames ti.now
    st.online_since st.game_since ti.pmap with hacc
  have hos : alookup uid acc.online_since = alookup uid st.online_since := by
    rw [← show (initView st uid).os = alookup uid st.online_since from rfl, ← hv]; rfl
  have hgs : alookup uid acc.game_since = alookup uid st.game_since := by
    rw [← show (initView st uid).gs = alookup uid st.game_since from rfl, ← hv]; rfl
  have hoffs : acc.events.filter (eventFor uid) = [] := by
    rw [← show (initView st uid).offs = ([] : List Event) from rfl, ← hv]; rfl
  have hconl : acc.current_online.filter (fun u => u == uid) = [] := by
    rw [← show (initView st uid).conl = ([] : List Nat) from rfl, ← hv]; rfl
  refine ⟨hos, hgs, ?_, ?_⟩
  · show (acc.events ++ (acc.current_online.filter
        (fun u => !(decide (u ∈ st.last_online_set)))).map
          (fun u => Event.online u (nameOf ti.usernames u))).filter (eventFor uid) = []
    rw [List.filter_append, hoffs]
    rw [List.filter_map]
    have hcomp : (eventFor uid ∘ fun u => Event.online u (nameOf ti.usernames u)) =
        fun u => u == uid := by
      funext u
      rfl
    rw [hcomp, filter_new_online_eq, hconl]
    by_cases hlast : uid ∈ st.last_online_set <;> simp [hlast]
  · show uid ∉ acc.current_online
    intro hmem
    exact absurd hconl ((mem_iff_filter_beq_ne_nil acc.current_online uid).mp hmem)

/-! ## Counting notifications -/

theorem filter_subpred {α : Type} {p q : α → Bool} (h : ∀ a, p a = true → q a = true)
    (l : List α) : l.filter p = (l.filter q).filter p := by
  induction l with
  | nil => rfl
  | cons a l ih =>
    cases hp : p a
    · cases hq : q a <;> simp [List.filter_cons, hp, hq, ih]
    · have hq := h a hp
      simp [List.filter_cons, hp, hq, ih]

theorem isOnlineFor_sub_eventFor (uid : Nat) :
    ∀ e, isOnlineFor uid e = true → eventFor uid e = true := by
  intro e he
  cases e with
  | offline u n a b => simp [isOnlineFor] at he
  | online u n => exact he

theorem isOfflineFor_sub_eventFor (uid : Nat) :
    ∀ e, isOfflineFor uid e = true → eventFor uid e = true := by
  intro e he
  cases e with
  | offline u n a b => exact he
  | online u n => simp [isOfflineFor] at he

theorem countOnline_eq_filter (uid : Nat) (evs : List Event) :
    countOnline uid evs = ((evs.filter (eventFor uid)).filter (isOnlineFor uid)).length := by
  rw [countOnline, List.countP_eq_length_filter, filter_subpred (isOnlineFor_sub_eventFor uid)]

theorem countOffline_eq_filter (uid : Nat) (evs : List Event) :
    countOffline uid evs = ((evs.filter (eventFor uid)).filter (isOfflineFor uid)).length := by
  rw [countOffline, List.countP_eq_length_filter, filter_subpred (isOfflineFor_sub_eventFor uid)]

/-! ## Per-tick corollaries for one identity -/

theorem tickView_online_offs (st : BotState) (ti : TickInput) (uid : Nat) (p : Presence)
    (hon : p.userPresenceType ≠ 0) : (tickView st ti uid p).offs = [] := by
  simp [tickView, stepViewEntry, hon, initView]

theorem tickView_online_conl (st : BotState) (ti : TickInput) (uid : Nat) (p : Presence)
    (hon : p.userPresenceType ≠ 0) : (tickView st ti uid p).conl = [uid] := by
  simp [tickView, stepViewEntry, hon, initView]

/-- A tick in which the identity is online and was not online last tick:
exactly one online notification, and the identity enters `last_online_set`. -/
theorem tick_online_first (st : BotState) (ti : TickInput) (uid : Nat) (p : Presence)
    (hnd : keysNodup ti.pmap) (hp : alookup uid ti.pmap = some p)
    (hon : p.userPresenceType ≠ 0) (hna : uid ∉ st.last_online_set) :
    countOnline uid (update_status_message st ti).2 = 1 ∧
    uid ∈ (update_status_message st ti).1.last_online_set := by
  obtain ⟨-, -, hevs, hmem⟩ := tick_uid_char st ti uid p hnd hp
  rw [tickView_online_offs st ti uid p hon, tickView_online_conl st ti uid p hon,
    if_neg hna] at hevs
  constructor
  · rw [countOnline_eq_filter, hevs]
    simp [isOnlineFor]
  · rw [hmem, tickView_online_conl st ti uid p hon]
    simp

/-- A tick in which the identity is online and was already online last tick:
no online notification, and the identity stays in `last_online_set`. -/
theorem tick_online_rest (st : BotState) (ti : TickInput) (uid : Nat) (p : Presence)
    (hnd : keysNodup ti.pmap) (hp : alookup uid ti.pmap = some p)
    (hon : p.userPresenceType ≠ 0) (hla : uid ∈ st.last_online_set) :
    countOnline uid (update_status_message st ti).2 = 0 ∧
    uid ∈ (update_status_message st ti).1.last_online_set := by
  obtain ⟨-, -, hevs, hmem⟩ := tick_uid_char st ti uid p hnd hp
  rw [tickView_online_offs st ti uid p hon, tickView_online_conl st ti uid p hon,
    if_pos hla] at hevs
  constructor
  · rw [countOnline_eq_filter, hevs]
    simp
  · rw [hmem, tickView_online_conl st ti uid p hon]
    simp

theorem tickView_offline_mem (st : BotState) (ti : TickInput) (uid : Nat) (p : Presence)
    (hoff : p.userPresenceType = 0) (hla : uid ∈ st.last_online_set) :
    tickView st ti uid p =
      ⟨none, none,
       [Event.offline uid (nameOf ti.usernames uid)
         (offDur st.online_since uid ti.now) (offDur st.game_since uid ti.now)], []⟩ := by
  simp [tickView, stepViewEntry, hoff, hla, initView, offDur]

theorem tickView_offline_not_mem (st : BotState) (ti : TickInput) (uid : Nat) (p : Presence)
    (hoff : p.userPresenceType = 0) (hla : uid ∉ st.last_online_set) :
    tickView st ti uid p = initView st uid := by
  simp [tickView, stepViewEntry, hoff, hla]

/-- A tick observing Offline for an identity in `last_online_set`: exactly the
one offline notification with the pop-computed durations, and both timer
entries removed. -/
theorem tick_offline_mem (st : BotState) (ti : TickInput) (uid : Nat) (p : Presence)
    (hnd : keysNodup ti.pmap) (hp : alookup uid ti.pmap = some p)
    (hoff : p.userPresenceType = 0) (hla : uid ∈ st.last_online_set) :
    (update_status_message st ti).2.filter (eventFor uid) =
      [Event.offline uid (nameOf ti.usernames uid)
        (offDur st.online_since uid ti.now) (offDur st.game_since uid ti.now)] ∧
    alookup uid (update_status_message st ti).1.online_since = none ∧
    alookup uid (update_status_message st ti).1.game_since = none := by
  obtain ⟨h1, h2, hevs, -⟩ := tick_uid_char st ti uid p hnd hp
  rw [tickView_offline_mem st ti uid p hoff hla] at h1 h2 hevs
  refine ⟨?_, h1, h2⟩
  rw [hevs]
  by_cases h : uid ∈ st.last_online_set <;> simp [h]

/-- A tick observing Offline for an identity not in `last_online_set`: no
notification about it at all, and both timer entries untouched. -/
theorem tick_offline_not_mem (st : BotState) (ti : TickInput) (uid : Nat) (p : Presence)
    (hnd : keysNodup ti.pmap) (hp : alookup uid ti.pmap = some p)
    (hoff : p.userPresenceType = 0) (hla : uid ∉ st.last_online_set) :
    (update_status_message st ti).2.filter (eventFor uid) = [] ∧
    alookup uid (update_status_message st ti).1.online_since = alookup uid st.online_since ∧
    alookup uid (update_status_message st ti).1.game_since = alookup uid st.game_since := by
  obtain ⟨h1, h2, hevs, -⟩ := tick_uid_char st ti uid p hnd hp
  rw [tickView_offline_not_mem st ti uid p hoff hla] at h1 h2 hevs
  refine ⟨?_, h1, h2⟩
  rw [hevs]
  simp [initView, hla]

/-! ## Multi-tick runs -/

theorem runTicks_cons (st : BotState) (ti : TickInput) (ts : List TickInput) :
    runTicks st (ti :: ts) =
      ((runTicks (update_status_message st ti).1 ts).1,
       (update_status_message st ti).2 :: (runTicks (update_status_message st ti).1 ts).2) := by
  simp [runTicks]

/-- While an identity stays in `last_online_set` and keeps appearing online,
no tick emits an online notification for it. -/
theorem run_online_stays (uid : Nat) (ticks : List TickInput) :
    ∀ (st : BotState), uid ∈ st.last_online_set →
    (∀ ti ∈ ticks, keysNodup ti.pmap ∧ onlineIn uid ti.pmap) →
    ∀ evs ∈ (runTicks st ticks).2, countOnline uid evs = 0 := by
  induction ticks with
  | nil =>
    intro st _ _ evs hevs
    simp [runTicks] at hevs
  | cons ti ts ih =>
    intro st hmem hall evs hevs
    obtain ⟨hnd, p, hp, hon⟩ :
        keysNodup ti.pmap ∧ ∃ p, alookup uid ti.pmap = some p ∧ p.userPresenceType ≠ 0 :=
      hall ti (by simp)
    have hrest := tick_online_rest st ti uid p hnd hp hon hmem
    rw [runTicks_cons] at hevs
    rcases List.mem_cons.mp hevs with h | h
    · rw [h]
      exact hrest.1
    · exact ih (update_status_message st ti).1 hrest.2
        (fun t ht => hall t (by simp [ht])) evs h

/-! ## Duration ordering invariant -/

/-- An offline notification carries 0 ≤ totalGame ≤ totalOnline; online
notifications are unconstrained. -/
def eventOrdered : Event → Prop
  | .offline _ _ tOn tGame => 0 ≤ tGame ∧ tGame ≤ tOn
  | .online _ _ => True

/-- Timer sanity at time `t`: every online-since stamp is ≤ t, and every
game-since stamp has an online-since stamp at most it. -/
def StateInv (os gs : List (Nat × Int)) (t : Int) : Prop :=
  (∀ u v, alookup u os = some v → v ≤ t) ∧
  (∀ u v, alookup u gs = some v → v ≤ t ∧ ∃ w, alookup u os = some w ∧ w ≤ v)

/-- The tick clocks are nondecreasing along a run starting at `t`. -/
def TimesMono : Int → List TickInput → Prop
  | _, [] => True
  | t, ti :: ts => t ≤ ti.now ∧ TimesMono ti.now ts

theorem alookup_insertAbsent (k : Nat) (now : Int) (m : List (Nat × Int)) (u : Nat) :
    alookup u (if (alookup k m).isNone then (k, now) :: m else m) =
      if u = k then some ((alookup k m).getD now) else alookup u m := by
  cases hk : alookup k m with
  | none =>
    by_cases hu : u = k
    · subst hu
      simp [alookup, hk]
    · simp [alookup, hk, hu, Ne.symm hu]
  | some x =>
    by_cases hu : u = k
    · subst hu
      simp [hk]
    · simp [hk, hu]

theorem alookup_aerase (k u : Nat) (m : List (Nat × Int)) :
    alookup u (aerase k m) = if u = k then none else alookup u m := by
  by_cases hu : u = k
  · subst hu
    simp [alookup_aerase_self]
  · simp [hu, alookup_aerase_ne (Ne.symm hu)]

theorem inv1_insertAbsent {m : List (Nat × Int)} {now : Int} (k : Nat)
    (h1 : ∀ u v, alookup u m = some v → v ≤ now) :
    ∀ u v, alookup u (if (alookup k m).isNone then (k, now) :: m else m) = some v →
      v ≤ now := by
  intro u v hv
  rw [alookup_insertAbsent] at hv
  by_cases hu : u = k
  · rw [if_pos hu] at hv
    cases hk : alookup k m with
    | none =>
      rw [hk] at hv
      simp at hv
      omega
    | some w =>
      rw [hk] at hv
      simp at hv
      exact hv ▸ h1 k w hk
  · rw [if_neg hu] at hv
    exact h1 u v hv

theorem insertAbsent_preserves {m : List (Nat × Int)} {u : Nat} {w : Int}
    (k : Nat) (now : Int) (h : alookup u m = some w) :
    alookup u (if (alookup k m).isNone then (k, now) :: m else m) = some w := by
  rw [alookup_insertAbsent]
  by_cases hu : u = k
  · subst hu
    rw [if_pos rfl, h]
    rfl
  · rw [if_neg hu]
    exact h

theorem stepPresence_inv (last : List Nat) (um : List (Nat × String)) (now : Int)
    (acc : TickAcc) (e : Nat × Presence)
    (h : StateInv acc.online_since acc.game_since now)
    (hev : ∀ ev ∈ acc.events, eventOrdered ev) :
    StateInv (stepPresence last um now acc e).online_since
        (stepPresence last um now acc e).game_since now ∧
    (∀ ev ∈ (stepPresence last um now acc e).events, eventOrdered ev) := by
  obtain ⟨k, p⟩ := e
  obtain ⟨h1, h2⟩ := h
  by_cases hon : p.userPresenceType ≠ 0
  · have hev' : (stepPresence last um now acc (k, p)).events = acc.events := by
      simp [stepPresence, hon]
    have hos' : (stepPresence last um now acc (k, p)).online_since =
        (if (alookup k acc.online_since).isNone then (k, now) :: acc.online_since
         else acc.online_since) := by
      simp [stepPresence, hon]
    refine ⟨⟨?_, ?_⟩, by rw [hev']; exact hev⟩
    · rw [hos']
      exact inv1_insertAbsent k h1
    · intro u v hv
      by_cases h2t : p.userPresenceType = 2
      · have hgs' : (stepPresence last um now acc (k, p)).game_since =
            (if (alookup k acc.game_since).isNone then (k, now) :: acc.game_since
             else acc.game_since) := by
          simp [stepPresence, hon, h2t]
        rw [hgs', alookup_insertAbsent] at hv
        by_cases hu : u = k
        · subst hu
          rw [if_pos rfl] at hv
          cases hg : alookup u acc.game_since with
          | none =>
            rw [hg] at hv
            simp at hv
            subst hv
            refine ⟨le_refl now, ?_⟩
            rw [hos']
            rw [alookup_insertAbsent, if_pos rfl]
            cases ho : alookup u acc.online_since with
            | none => exact ⟨now, rfl, le_refl now⟩
            | some w => exact ⟨w, by simp, h1 u w ho⟩
          | some g =>
            rw [hg] at hv
            simp at hv
            subst hv
            obtain ⟨hg1, w, hw, hwg⟩ := h2 u g hg
            exact ⟨hg1, w, by rw [hos']; exact insertAbsent_preserves u now hw, hwg⟩
        · rw [if_neg hu] at hv
          obtain ⟨hg1, w, hw, hwg⟩ := h2 u v hv
          exact ⟨hg1, w, by rw [hos']; exact insertAbsent_preserves k now hw, hwg⟩
      · have hgs' : (stepPresence last um now acc (k, p)).game_since =
            aerase k acc.game_since := by
          simp [stepPresence, hon, h2t]
        rw [hgs', alookup_aerase] at hv
        by_cases hu : u = k
        · rw [if_pos hu] at hv
          exact absurd hv (by simp)
        · rw [if_neg hu] at hv
          obtain ⟨hg1, w, hw, hwg⟩ := h2 u v hv
          exact ⟨hg1, w, by rw [hos']; exact insertAbsent_preserves k now hw, hwg⟩
  · push_neg at hon
    by_cases hmem : k ∈ last
    · have hos' : (stepPresence last um now acc (k, p)).online_since =
          aerase k acc.online_since := by
        simp [stepPresence, hon, hmem]
      have hgs' : (stepPresence last um now acc (k, p)).game_since =
          aerase k acc.game_since := by
        simp [stepPresence, hon, hmem]
      have hev' : (stepPresence last um now acc (k, p)).events =
          acc.events ++ [Event.offline k (nameOf um k)
            (match alookup k acc.online_since with | some t => now - t | none => 0)
            (match alookup k acc.game_since with | some t => now - t | none => 0)] := by
        simp [stepPresence, hon, hmem]
      refine ⟨⟨?_, ?_⟩, ?_⟩
      · intro u v hv
        rw [hos', alookup_aerase] at hv
        by_cases hu : u = k
        · rw [if_pos hu] at hv
          exact absurd hv (by simp)
        · rw [if_neg hu] at hv
          exact h1 u v hv
      · intro u v hv
        rw [hgs', alookup_aerase] at hv
        by_cases hu : u = k
        · rw [if_pos hu] at hv
          exact absurd hv (by simp)
        · rw [if_neg hu] at hv
          obtain ⟨hg1, w, hw, hwg⟩ := h2 u v hv
          refine ⟨hg1, w, ?_, hwg⟩
          rw [hos', alookup_aerase, if_neg hu]
          exact hw
      · intro ev hevm
        rw [hev'] at hevm
        rcases List.mem_append.mp hevm with hold | hnew
        · exact hev ev hold
        · have heq : ev = Event.offline k (nameOf um k)
              (match alookup k acc.online_since with | some t => now - t | none => 0)
              (match alookup k acc.game_since with | some t => now - t | none => 0) := by
            simpa using hnew
          subst heq
          cases hg : alookup k acc.game_since with
          | none =>
            cases ho : alookup k acc.online_since with
            | none => simp [eventOrdered, ho, hg]
            | some w =>
              have := h1 k w ho
              simp [eventOrdered, ho, hg]
              omega
          | some g =>
            obtain ⟨hg1, w, hw, hwg⟩ := h2 k g hg
            simp [eventOrdered, hg, hw]
            omega
    · have heq : stepPresence last um now acc (k, p) = acc := by
        simp [stepPresence, hon, hmem]
      rw [heq]
      exact ⟨⟨h1, h2⟩, hev⟩

theorem foldl_inv (last : List Nat) (um : List (Nat × String)) (now : Int)
    (pmap : List (Nat × Presence)) : ∀ (acc : TickAcc),
    StateInv acc.online_since acc.game_since now →
    (∀ ev ∈ acc.events, eventOrdered ev) →
    StateInv (pmap.foldl (stepPresence last um now) acc).online_since
        (pmap.foldl (stepPresence last um now) acc).game_since now ∧
    ∀ ev ∈ (pmap.foldl (stepPresence last um now) acc).events, eventOrdered ev := by
  induction pmap with
  | nil => exact fun acc h hev => ⟨h, hev⟩
  | cons e rest ih =>
    intro acc h hev
    obtain ⟨h2, hev2⟩ := stepPresence_inv last um now acc e h hev
    simpa [List.foldl_cons] using ih _ h2 hev2

theorem StateInv_mono {os gs : List (Nat × Int)} {t t2 : Int}
    (h : StateInv os gs t) (hle : t ≤ t2) : StateInv os gs t2 := by
  obtain ⟨h1, h2⟩ := h
  refine ⟨fun u v hv => le_trans (h1 u v hv) hle, fun u v hv => ?_⟩
  obtain ⟨ha, w, hw, hwv⟩ := h2 u v hv
  exact ⟨le_trans ha hle, w, hw, hwv⟩

theorem tick_inv (st : BotState) (ti : TickInput)
    (h : StateInv st.online_since st.game_since ti.now) :
    StateInv (update_status_message st ti).1.online_since
        (update_status_message st ti).1.game_since ti.now ∧
    ∀ e ∈ (update_status_message st ti).2, eventOrdered e := by
  have hf := foldl_inv st.last_online_set ti.usernames ti.now ti.pmap
    ⟨st.online_since, st.game_since, [], [], []⟩ h (by simp)
  refine ⟨hf.1, ?_⟩
  intro e he
  rcases List.mem_append.mp he with hl | hr
  · exact hf.2 e hl
  · rcases List.mem_map.mp hr with ⟨u, -, heq⟩
    rw [← heq]
    trivial

theorem not_mem_keys_of_alookup_eq_none {α : Type} {k : Nat} {m : List (Nat × α)}
    (h : alookup k m = none) : k ∉ m.map Prod.fst := by
  induction m with
  | nil => simp
  | cons e rest ih =>
    obtain ⟨j, v⟩ := e
    by_cases hj : j = k
    · subst hj
      simp [alookup] at h
    · rw [alookup_cons_ne hj] at h
      intro hmem
      rw [List.map_cons] at hmem
      rcases List.mem_cons.mp hmem with h2 | h2
      · exact hj h2.symm
      · exact ih h h2

theorem tick_countOffline_le_one (st : BotState) (ti : TickInput) (uid : Nat)
    (hnd : keysNodup ti.pmap) :
    countOffline uid (update_status_message st ti).2 ≤ 1 := by
  rw [countOffline_eq_filter]
  cases hp : alookup uid ti.pmap with
  | none =>
    obtain ⟨-, -, hevs, -⟩ :=
      tick_uid_frame st ti uid (not_mem_keys_of_alookup_eq_none hp)
    rw [hevs]
    simp
  | some p =>
    obtain ⟨-, -, hevs, -⟩ := tick_uid_char st ti uid p hnd hp
    rw [hevs]
    by_cases hon : p.userPresenceType ≠ 0
    · rw [tickView_online_offs st ti uid p hon, tickView_online_conl st ti uid p hon]
      by_cases hla : uid ∈ st.last_online_set <;> simp [hla, isOfflineFor]
    · push_neg at hon
      by_cases hla : uid ∈ st.last_online_set
      · rw [tickView_offline_mem st ti uid p hon hla]
        simp [hla, isOfflineFor]
      · rw [tickView_offline_not_mem st ti uid p hon hla]
        simp [hla, initView]

theorem run_ordered (ticks : List TickInput) : ∀ (st : BotState) (t0 : Int),
    StateInv st.online_since st.game_since t0 → TimesMono t0 ticks →
    (∀ ti ∈ ticks, keysNodup ti.pmap) →
    ∀ evs ∈ (runTicks st ticks).2,
      (∀ e ∈ evs, eventOrdered e) ∧ ∀ uid, countOffline uid evs ≤ 1 := by
  induction ticks with
  | nil =>
    intro st t0 _ _ _ evs hevs
    simp [runTicks] at hevs
  | cons ti ts ih =>
    intro st t0 hinv hmono hnd evs hevs
    obtain ⟨hle, hmono2⟩ := hmono
    have hinv2 : StateInv st.online_since st.game_since ti.now := StateInv_mono hinv hle
    obtain ⟨hpost, hordered⟩ := tick_inv st ti hinv2
    rw [runTicks_cons] at hevs
    rcases List.mem_cons.mp hevs with h | h
    · subst h
      exact ⟨hordered, fun uid => tick_countOffline_le_one st ti uid (hnd ti (by simp))⟩
    · exact ih (update_status_message st ti).1 ti.now hpost hmono2
        (fun t ht => hnd t (by simp [ht])) evs h

/-! ## Batching lemmas -/

theorem chunkedAux_join {α : Type} (n : Nat) (hn : 0 < n) :
    ∀ (fuel : Nat) (l : List α), l.length ≤ fuel → (chunkedAux n fuel l).flatten = l := by
  intro fuel
  induction fuel with
  | zero =>
    intro l hl
    have : l = [] := List.eq_nil_of_length_eq_zero (Nat.le_zero.mp hl)
    subst this
    rfl
  | succ fuel ih =>
    intro l hl
    cases l with
    | nil => rfl
    | cons a rest =>
      have hdrop : ((a :: rest).drop n).length ≤ fuel := by
        rw [List.length_drop]
        simp only [List.length_cons] at hl ⊢
        omega
      show (List.take n (a :: rest) :: chunkedAux n fuel (List.drop n (a :: rest))).flatten =
        a :: rest
      rw [List.flatten_cons, ih _ hdrop, List.take_append_drop]

theorem chunked_join {α : Type} (n : Nat) (hn : 0 < n) (l : List α) :
    (chunked n l).flatten = l :=
  chunkedAux_join n hn l.length l (le_refl _)

theorem chunkedAux_length_le {α : Type} (n : Nat) :
    ∀ (fuel : Nat) (l : List α), ∀ c ∈ chunkedAux n fuel l, c.length ≤ n := by
  intro fuel
  induction fuel with
  | zero =>
    intro l c hc
    simp [chunkedAux] at hc
  | succ fuel ih =>
    intro l c hc
    cases l with
    | nil => simp [chunkedAux] at hc
    | cons a rest =>
      rcases List.mem_cons.mp hc with h | h
      · rw [h, List.length_take]
        exact min_le_left _ _
      · exact ih _ c h

theorem chunked_length_le {α : Type} (n : Nat) (l : List α) :
    ∀ c ∈ chunked n l, c.length ≤ n :=
  chunkedAux_length_le n l.length l

theorem get_presences_calls {α : Type} (call : List Nat → Option (List α)) (l : List Nat) :
    (get_presences call l).2 = chunked 100 l := by
  rw [get_presences]
  by_cases hl : l.isEmpty
  · rw [if_pos hl]
    have : l = [] := List.isEmpty_iff.mp hl
    subst this
    rfl
  · rw [if_neg hl]
    have key : ∀ (chunks : List (List Nat)) (a : List α) (b : List (List Nat)),
        (chunks.foldl (fun acc chunk =>
          match call chunk with
          | some data => (acc.1 ++ data, acc.2 ++ [chunk])
          | none => (acc.1, acc.2 ++ [chunk])) (a, b)).2 = b ++ chunks := by
      intro chunks
      induction chunks with
      | nil => intro a b; simp
      | cons c cs ih =>
        intro a b
        cases hc : call c <;> simp [List.foldl_cons, hc, ih]
    simpa using key (chunked 100 l) [] []

theorem get_presences_results {α : Type} (call : List Nat → Option (List α)) (l : List Nat) :
    (get_presences call l).1 = ((chunked 100 l).map (fun c => (call c).getD [])).flatten := by
  rw [get_presences]
  by_cases hl : l.isEmpty
  · rw [if_pos hl]
    have : l = [] := List.isEmpty_iff.mp hl
    subst this
    rfl
  · rw [if_neg hl]
    have key : ∀ (chunks : List (List Nat)) (a : List α) (b : List (List Nat)),
        (chunks.foldl (fun acc chunk =>
          match call chunk with
          | some data => (acc.1 ++ data, acc.2 ++ [chunk])
          | none => (acc.1, acc.2 ++ [chunk])) (a, b)).1 =
          a ++ (chunks.map (fun c => (call c).getD [])).flatten := by
      intro chunks
      induction chunks with
      | nil => intro a b; simp
      | cons c cs ih =>
        intro a b
        cases hc : call c <;> simp [List.foldl_cons, hc, ih]
    simpa using key (chunked 100 l) [] []

/-- The diff step replaces `last_online_set` by exactly the ids observed
online this tick, whatever else happens. -/
theorem tick_last_online_set (st : BotState) (ti : TickInput) :
    (update_status_message st ti).1.last_online_set = onlineIds ti.pmap := by
  show (processPresences st.last_online_set ti.usernames ti.now
    st.online_since st.game_since ti.pmap).current_online = onlineIds ti.pmap
  rw [processPresences, foldl_current_online]
  rfl

/-! ## Concrete scenarios -/

/-- A publish environment where everything succeeds. -/
def envOk : PubEnv := ⟨EditResult.ok, some 1, true⟩

/-- Tick at t = 100: identity 7 is in-game (OnlineActive). -/
def cexTick1 : TickInput := ⟨[(7, ⟨2, none⟩)], [(7, "Alice")], 100, envOk⟩

/-- Tick at t = 200: identity 7 is absent from the presence response. -/
def cexTick2 : TickInput := ⟨[], [], 200, envOk⟩

/-- Tick at t = 300: identity 7 has an explicit Offline presence record. -/
def cexTick3 : TickInput := ⟨[(7, ⟨0, none⟩)], [(7, "Alice")], 300, envOk⟩

/-- The state reached from process start after cexTick1 and cexTick2:
identity 7 still has both timer entries but is no longer in
`last_online_set`. -/
def cexState2 : BotState := (runTicks initialState [cexTick1, cexTick2]).1

/-- A two-tick run: identity 7 comes online in-game, then goes Offline. -/
def wTicks : List TickInput := [cexTick1, cexTick3]

/-! ## Claims -/

/-- C1, counterexample: in the reachable state `cexState2` identity 7 has a
SessionState entry (onlineSince = 100) and this tick's snapshot reports it
Offline, yet the tick emits no offline event at all and leaves the entry in
place — the code gates on `last_online_set`, not on entry existence, so the
claim as stated is false. -/
theorem offline_gate_counterexample :
    (alookup 7 cexState2.online_since).isSome = true ∧
    alookup 7 cexTick3.pmap = some ⟨0, none⟩ ∧
    (update_status_message cexState2 cexTick3).2 = [] ∧
    alookup 7 (update_status_message cexState2 cexTick3).1.online_since =
      alookup 7 cexState2.online_since ∧
    alookup 7 (update_status_message cexState2 cexTick3).1.game_since =
      alookup 7 cexState2.game_since := by
  decide

/-- C1, amended: for an identity whose snapshot this tick is Offline, the
gate is membership in LastOnlineSet: if the identity is in LastOnlineSet the
tick computes totalOnlineDuration = now − onlineSince (zero if no entry) and
totalActiveDuration = now − activeSince (zero if absent), removes the
entries, and emits exactly one offline event carrying those durations; if it
is not in LastOnlineSet, no offline event is emitted and its SessionState is
unchanged. -/
theorem offline_event_gated_by_last_online_set (st : BotState) (ti : TickInput)
    (uid : Nat) (p : Presence)
    (hnd : keysNodup ti.pmap) (hp : alookup uid ti.pmap = some p)
    (hoff : p.userPresenceType = 0) :
    (uid ∈ st.last_online_set →
      (update_status_message st ti).2.filter (eventFor uid) =
        [Event.offline uid (nameOf ti.usernames uid)
          (offDur st.online_since uid ti.now) (offDur st.game_since uid ti.now)] ∧
      alookup uid (update_status_message st ti).1.online_since = none ∧
      alookup uid (update_status_message st ti).1.game_since = none) ∧
    (uid ∉ st.last_online_set →
      (update_status_message st ti).2.filter (eventFor uid) = [] ∧
      alookup uid (update_status_message st ti).1.online_since =
        alookup uid st.online_since ∧
      alookup uid (update_status_message st ti).1.game_since =
        alookup uid st.game_since) :=
  ⟨fun hla => tick_offline_mem st ti uid p hnd hp hoff hla,
   fun hla => tick_offline_not_mem st ti uid p hnd hp hoff hla⟩

/-- Witness for the amended C1 at a concrete tracked identity going offline. -/
theorem offline_event_gated_by_last_online_set_witness :
    (update_status_message ⟨[(7, 100)], [(7, 100)], [7], none, none⟩ cexTick3).2.filter
        (eventFor 7) =
      [Event.offline 7 "Alice" 200 200] ∧
    alookup 7 (update_status_message ⟨[(7, 100)], [(7, 100)], [7], none, none⟩
      cexTick3).1.online_since = none := by
  have h := (offline_event_gated_by_last_online_set
    ⟨[(7, 100)], [(7, 100)], [7], none, none⟩ cexTick3 7 ⟨0, none⟩
    (by decide) (by decide) rfl).1 (by decide)
  exact ⟨by rw [h.1]; decide, h.2.1⟩

/-- C2: an identity that appears online this tick while not in LastOnlineSet
gets exactly one online event this tick, and across any following consecutive
ticks in which it stays online, no further online event is emitted. -/
theorem online_event_exactly_once (st : BotState) (uid : Nat) (ti : TickInput)
    (ts : List TickInput)
    (hna : uid ∉ st.last_online_set)
    (hall : ∀ t ∈ ti :: ts, keysNodup t.pmap ∧ onlineIn uid t.pmap) :
    countOnline uid ((runTicks st (ti :: ts)).2.headD []) = 1 ∧
    ∀ evs ∈ (runTicks st (ti :: ts)).2.tail, countOnline uid evs = 0 := by
  obtain ⟨hnd, p, hp, hon⟩ :
      keysNodup ti.pmap ∧ ∃ p, alookup uid ti.pmap = some p ∧ p.userPresenceType ≠ 0 :=
    hall ti (by simp)
  have hfirst := tick_online_first st ti uid p hnd hp hon hna
  constructor
  · rw [runTicks_cons]
    exact hfirst.1
  · intro evs hevs
    rw [runTicks_cons] at hevs
    exact run_online_stays uid ts (update_status_message st ti).1 hfirst.2
      (fun t ht => hall t (by simp [ht])) evs (by simpa using hevs)

/-- Witness for C2 on a concrete single-tick run. -/
theorem online_event_exactly_once_witness :
    countOnline 7 ((runTicks initialState [cexTick1]).2.headD []) = 1 :=
  (online_event_exactly_once initialState 7 cexTick1 [] (by decide) (by
    intro t ht
    have heq : t = cexTick1 := by simpa using ht
    subst heq
    exact ⟨by decide, ⟨2, none⟩, rfl, by decide⟩)).1

/-- C3: the pre-restart warning condition of `auto_restart_check` holds at
five consecutive whole-second elapsed values (42900 … 42904 for the 12 h
interval), so the once-per-second check loop sends the warning about five
times instead of exactly once — there is no fired-once guard in the code. -/
theorem restart_warning_refires :
    auto_restart_warning 42900 = true ∧
    auto_restart_warning 42901 = true ∧
    auto_restart_warning 42902 = true ∧
    auto_restart_warning 42903 = true ∧
    auto_restart_warning 42904 = true ∧
    auto_restart_warning 42899 = false ∧
    auto_restart_warning 42905 = false := by
  decide

/-- C4: in any run from process start with nondecreasing tick clocks, every
offline event carries totalOnline ≥ totalActive ≥ 0, and each tick emits at
most one offline event per identity (so the transition's event is unique). -/
theorem offline_durations_ordered_and_unique (last0 : List Nat) (mid pers : Option Nat)
    (t0 : Int) (ticks : List TickInput)
    (hmono : TimesMono t0 ticks)
    (hnd : ∀ ti ∈ ticks, keysNodup ti.pmap) :
    ∀ evs ∈ (runTicks ⟨[], [], last0, mid, pers⟩ ticks).2,
      (∀ e ∈ evs, eventOrdered e) ∧ ∀ uid, countOffline uid evs ≤ 1 := by
  apply run_ordered ticks ⟨[], [], last0, mid, pers⟩ t0 ?_ hmono hnd
  constructor
  · intro u v hv
    simp [alookup] at hv
  · intro u v hv
    simp [alookup] at hv

/-- Witness for C4 on the concrete online-then-offline run. -/
theorem offline_durations_ordered_and_unique_witness :
    (∀ e ∈ (runTicks initialState wTicks).2.tail.headD [], eventOrdered e) ∧
    ∀ uid, countOffline uid ((runTicks initialState wTicks).2.tail.headD []) ≤ 1 := by
  have h := offline_durations_ordered_and_unique [] none none 0 wTicks
    (⟨by decide, by decide, trivial⟩)
    (by
      intro t ht
      rcases (by simpa [wTicks] using ht : t = cexTick1 ∨ t = cexTick3) with heq | heq <;>
        subst heq <;> decide)
  exact h ((runTicks initialState wTicks).2.tail.headD [])
    (by simp [wTicks, runTicks_cons, initialState])

set_option maxRecDepth 8192 in
/-- C5: the Batching Fetcher partitions any id sequence into ordered
contiguous chunks of at most 100 that concatenate back to the input, issues
exactly one upstream call per chunk (no retries), drops failed chunks and
returns the concatenation of the successful chunk results in order; 250 ids
give chunk sizes 100/100/50. -/
theorem batching_fetcher_contract {α : Type} (call : List Nat → Option (List α))
    (l : List Nat) :
    (∀ c ∈ chunked 100 l, c.length ≤ 100) ∧
    (chunked 100 l).flatten = l ∧
    (get_presences call l).2 = chunked 100 l ∧
    (get_presences call l).1 = ((chunked 100 l).map (fun c => (call c).getD [])).flatten ∧
    (chunked 100 (List.range 250)).map List.length = [100, 100, 50] :=
  ⟨chunked_length_le 100 l, chunked_join 100 (by norm_num) l,
   get_presences_calls call l, get_presences_results call l, by decide⟩

/-- Witness for C5 at a concrete failing middle chunk. -/
theorem batching_fetcher_contract_witness :
    (chunked 100 (List.range 250)).map List.length = [100, 100, 50] :=
  (batching_fetcher_contract (fun _ => (none : Option (List Nat))) []).2.2.2.2

/-- C6, counterexample: in the reachable state `cexState2`, the tick
`cexTick3` observes identity 7 as Offline (so its last observed kind is not
OnlineActive), yet after the tick `activeSince` (game_since) is still
present — the claimed iff fails for identities that dropped out of the
snapshot before going Offline. -/
theorem active_since_iff_counterexample :
    alookup 7 cexTick3.pmap = some ⟨0, none⟩ ∧
    alookup 7 (update_status_message cexState2 cexTick3).1.game_since = some 100 := by
  decide

/-- C6, amended: per tick, for an identity with a presence record,
`activeSince` afterwards is present iff the observed kind is OnlineActive,
except that an Offline observation for an identity not in LastOnlineSet
leaves `activeSince` untouched (so a stale entry can survive); in particular
OnlineIdle (and any other online kind that is not in-game) clears it the
same tick. -/
theorem active_since_transition (st : BotState) (ti : TickInput) (uid : Nat) (p : Presence)
    (hnd : keysNodup ti.pmap) (hp : alookup uid ti.pmap = some p) :
    alookup uid (update_status_message st ti).1.game_since =
      (if p.userPresenceType = 2 then some ((alookup uid st.game_since).getD ti.now)
       else if p.userPresenceType = 0 then
         (if uid ∈ st.last_online_set then none else alookup uid st.game_since)
       else none) := by
  obtain ⟨-, h2, -, -⟩ := tick_uid_char st ti uid p hnd hp
  rw [h2]
  by_cases h2t : p.userPresenceType = 2
  · have hon : p.userPresenceType ≠ 0 := by simp [h2t]
    simp [tickView, stepViewEntry, initView, hon, h2t]
  · by_cases hoff : p.userPresenceType = 0
    · by_cases hla : uid ∈ st.last_online_set
      · rw [tickView_offline_mem st ti uid p hoff hla]
        simp [h2t, hoff, hla]
      · rw [tickView_offline_not_mem st ti uid p hoff hla]
        simp [h2t, hoff, hla, initView]
    · simp [tickView, stepViewEntry, initView, hoff, h2t]

/-- Witness for the amended C6: an in-game identity reverting to OnlineIdle
has `activeSince` cleared that same tick. -/
theorem active_since_transition_witness :
    alookup 7 (update_status_message ⟨[(7, 100)], [(7, 100)], [7], none, none⟩
      ⟨[(7, ⟨1, none⟩)], [(7, "Alice")], 300, envOk⟩).1.game_since = none := by
  have h := active_since_transition ⟨[(7, 100)], [(7, 100)], [7], none, none⟩
    ⟨[(7, ⟨1, none⟩)], [(7, "Alice")], 300, envOk⟩ 7 ⟨1, none⟩ (by decide) rfl
  simpa using h

/-- C7: after every tick, `last_online_set` equals exactly the set of ids
observed online this tick, and this does not depend on the publish outcome
(the publish block catches its own exceptions before the assignment). -/
theorem last_online_set_replaced_unconditionally (st : BotState) (ti : TickInput) :
    (update_status_message st ti).1.last_online_set = onlineIds ti.pmap ∧
    ∀ env2 : PubEnv,
      (update_status_message st { ti with env := env2 }).1.last_online_set =
        (update_status_message st ti).1.last_online_set := by
  refine ⟨tick_last_online_set st ti, fun env2 => ?_⟩
  rw [tick_last_online_set, tick_last_online_set]

/-- C8: the Publisher with a handle whose edit fails with not-found makes
exactly one create call and replaces (and persists) the handle; on any other
edit failure it makes no create call and keeps the handle; with no handle it
makes exactly one create call and stores and persists the new handle. -/
theorem publisher_state_machine (env : PubEnv) (mid : Nat) (pers : Option Nat) (nid : Nat) :
    (env.editResult = EditResult.notFound → env.createResult = some nid →
      publishStep env (some mid) pers =
        ⟨some nid, if env.persistOk then some nid else pers, 1⟩) ∧
    ((env.editResult = EditResult.forbidden ∨ env.editResult = EditResult.otherErr) →
      (publishStep env (some mid) pers).status_message_id = some mid ∧
      (publishStep env (some mid) pers).createCalls = 0) ∧
    (env.createResult = some nid →
      (publishStep env none pers).status_message_id = some nid ∧
      (publishStep env none pers).createCalls = 1 ∧
      (env.persistOk = true → (publishStep env none pers).persisted_id = some nid)) := by
  obtain ⟨er, cr, po⟩ := env
  refine ⟨?_, ?_, ?_⟩
  · intro he hc
    simp only at he hc
    subst he
    subst hc
    cases po <;> simp [publishStep, persistState]
  · intro he
    simp only at he
    rcases he with he | he <;> subst he <;> cases po <;>
      simp [publishStep, persistState]
  · intro hc
    simp only at hc
    subst hc
    cases po <;> simp [publishStep, persistState]

/-- Witness for C8: a failed edit due to not-found with a successful send. -/
theorem publisher_state_machine_witness :
    publishStep ⟨EditResult.notFound, some 5, true⟩ (some 3) (some 3) = ⟨some 5, some 5, 1⟩ :=
  (publisher_state_machine ⟨EditResult.notFound, some 5, true⟩ 3 (some 3) 5).1 rfl rfl

/-- C9: the Status Renderer is a pure function — identical (records, clock,
time) inputs give byte-identical output — and the display-line list it
renders is sorted case-insensitively by display name in ascending order. -/
theorem renderer_deterministic_and_sorted (fmtTime : Int → String)
    (l1 l2 : List DisplayLine) (s1 s2 n1 n2 : Int)
    (hl : l1 = l2) (hs : s1 = s2) (hn : n1 = n2) :
    render fmtTime l1 s1 n1 = render fmtTime l2 s2 n2 ∧
    List.Sorted lineLE (sortLines l1) ∧
    List.Perm (sortLines l1) l1 := by
  subst hl
  subst hs
  subst hn
  exact ⟨rfl, List.sorted_insertionSort lineLE l1, List.perm_insertionSort lineLE l1⟩

/-- Witness for C9 on a two-line input needing a case-insensitive swap. -/
theorem renderer_deterministic_and_sorted_witness :
    List.Sorted lineLE (sortLines [⟨"b", "", "", ""⟩, ⟨"A", "", "", ""⟩]) :=
  (renderer_deterministic_and_sorted (fun _ => "")
    [⟨"b", "", "", ""⟩, ⟨"A", "", "", ""⟩] [⟨"b", "", "", ""⟩, ⟨"A", "", "", ""⟩]
    0 0 0 0 rfl rfl rfl).2.1

/-- C10: an identity absent from this tick's presence response gets neither
an online nor an offline event and keeps both SessionState timers exactly as
they were — it is simply excluded from the snapshot. -/
theorem absent_identity_untouched (st : BotState) (ti : TickInput) (uid : Nat)
    (h : uid ∉ ti.pmap.map Prod.fst) :
    alookup uid (update_status_message st ti).1.online_since = alookup uid st.online_since ∧
    alookup uid (update_status_message st ti).1.game_since = alookup uid st.game_since ∧
    (update_status_message st ti).2.filter (eventFor uid) = [] := by
  obtain ⟨h1, h2, h3, -⟩ := tick_uid_frame st ti uid h
  exact ⟨h1, h2, h3⟩

/-- Witness for C10: identity 7 absent from the tick after being online. -/
theorem absent_identity_untouched_witness :
    (update_status_message (update_status_message initialState cexTick1).1
      cexTick2).2.filter (eventFor 7) = [] :=
  (absent_identity_untouched (update_status_message initialState cexTick1).1
    cexTick2 7 (by decide)).2.2
